import Mathlib

/-!
Shallow embedding of the Monte Carlo investment-risk simulator in
`services/ml-api/app/modules/simulator.py` (functions `run_monte_carlo`,
`compute_simulation`, `_build_fan_chart`), together with theorems settling
the specification claims about it.

Numeric model: Python floats are embedded as rationals (ℚ), so all
arithmetic is exact real arithmetic; NumPy's float rounding is out of scope.
The NumPy `Generator` is embedded as a deterministic stream: an ambient
family `entropy : Nat → Nat → ℚ` maps a seed to the stream of "raw" draws of
that generator, and each draw request consumes one stream element in order.
`random()` returns the raw element (assumed in `[0,1)` where a claim needs
it), `normal(mu, sigma)` returns `mu + sigma * z` with `z` the raw element
read as a standard-normal deviate, and `uniform(lo, hi)` returns
`lo + (hi - lo) * u` with `u` the raw element read as a `[0,1)` uniform.
This preserves the draw *order* of the source exactly, which is what the
reproducibility and dataflow claims depend on.
-/

namespace Orbit

/-- Deterministic random source: the underlying raw-draw stream `ω` plus the
position `k` of the next draw. Models one `np.random.Generator` instance. -/
structure Rng where
  ω : Nat → ℚ
  k : Nat

/-- `rng.random()`: consume one raw draw, returned as a `[0,1)` uniform. -/
def rand (r : Rng) : ℚ × Rng :=
  (r.ω r.k, ⟨r.ω, r.k + 1⟩)

/-- `rng.normal(mu, sigma)`: consume one raw draw `z` (a standard-normal
deviate in the model) and return `mu + sigma * z`. -/
def normalDraw (mu sigma : ℚ) (r : Rng) : ℚ × Rng :=
  (mu + sigma * r.ω r.k, ⟨r.ω, r.k + 1⟩)

/-- `rng.uniform(lo, hi)`: consume one raw draw `u ∈ [0,1)` and return
`lo + (hi - lo) * u` (NumPy maps the unit draw affinely onto `[lo, hi)`). -/
def uniformDraw (lo hi : ℚ) (r : Rng) : ℚ × Rng :=
  (lo + (hi - lo) * r.ω r.k, ⟨r.ω, r.k + 1⟩)

/-- `np.random.default_rng(seed)` under the ambient entropy family: the
stream attached to `seed`, positioned at its first element. -/
def default_rng (entropy : Nat → Nat → ℚ) (seed : Nat) : Rng :=
  ⟨entropy seed, 0⟩

/-- Mutable state of one scalar trial inside `run_monte_carlo`'s loop body:
`remaining_budget`, `cumulative_revenue`, `satellite_alive` (lines 80-82). -/
structure TrialState where
  remaining_budget : ℚ
  cumulative_revenue : ℚ
  satellite_alive : Bool

/-- The `for year in range(mission_duration_years)` loop of `run_monte_carlo`
(simulator.py lines 84-105). First `Nat` argument is the remaining number of
loop iterations, second is the current `year` index (0-based). The dead
branch charges `ops_cost_per_year_usd * 0.1` to the remaining budget and
`break`s; the annual-failure branch kills the satellite and charges one year
of ops cost; the revenue branch draws `clear_days`, applies the growth
factor `(1 + revenue_growth_pct_per_year) ^ year` and a `uniform(0.85,1.15)`
noise factor, accumulates revenue, and charges one year of ops cost. -/
def runYears (annual_failure_prob revenue_per_clear_day_usd clear_days_mu
    clear_days_sigma ops_cost_per_year_usd revenue_growth_pct_per_year : ℚ) :
    Nat → Nat → TrialState → Rng → TrialState × Rng
  | 0, _, s, r => (s, r)
  | fuel + 1, year, s, r =>
    if s.satellite_alive = false then
      ({ s with remaining_budget :=
          s.remaining_budget - ops_cost_per_year_usd * (1 / 10) }, r)
    else
      let u := rand r
      if u.1 < annual_failure_prob then
        runYears annual_failure_prob revenue_per_clear_day_usd clear_days_mu
          clear_days_sigma ops_cost_per_year_usd revenue_growth_pct_per_year
          fuel (year + 1)
          { s with satellite_alive := false,
                   remaining_budget := s.remaining_budget - ops_cost_per_year_usd }
          u.2
      else
        let cd := normalDraw clear_days_mu clear_days_sigma u.2
        let clear_days := max 0 cd.1
        let growth_factor := (1 + revenue_growth_pct_per_year) ^ year
        let noise := uniformDraw (17 / 20) (23 / 20) cd.2
        let year_revenue := clear_days * revenue_per_clear_day_usd * growth_factor * noise.1
        runYears annual_failure_prob revenue_per_clear_day_usd clear_days_mu
          clear_days_sigma ops_cost_per_year_usd revenue_growth_pct_per_year
          fuel (year + 1)
          { s with cumulative_revenue := s.cumulative_revenue + year_revenue,
                   remaining_budget := s.remaining_budget - ops_cost_per_year_usd }
          noise.2

/-- One iteration of the trial loop of `run_monte_carlo` (lines 72-107):
launch check, yearly life simulation, and the final scalar outcome
`cumulative_revenue - total_investment - ops_cost_per_year_usd *
mission_duration_years`. Returns the outcome and the advanced generator. -/
def runTrial (mission_duration_years : Nat)
    (total_budget_usd launch_cost_usd satellite_cost_usd launch_failure_prob
     annual_failure_prob revenue_per_clear_day_usd clear_days_mu
     clear_days_sigma ops_cost_per_year_usd revenue_growth_pct_per_year : ℚ)
    (r : Rng) : ℚ × Rng :=
  let total_investment := launch_cost_usd + satellite_cost_usd
  let u := rand r
  if u.1 < launch_failure_prob then
    (-total_investment, u.2)
  else
    let s0 : TrialState :=
      ⟨total_budget_usd - total_investment, 0, true⟩
    let res := runYears annual_failure_prob revenue_per_clear_day_usd
      clear_days_mu clear_days_sigma ops_cost_per_year_usd
      revenue_growth_pct_per_year mission_duration_years 0 s0 u.2
    (res.1.cumulative_revenue - total_investment -
       ops_cost_per_year_usd * (mission_duration_years : ℚ), res.2)

/-- The `for i in range(n_simulations)` loop of `run_monte_carlo`: all trials
consume, in sequence, the single shared generator. -/
def runTrials (mission_duration_years : Nat)
    (total_budget_usd launch_cost_usd satellite_cost_usd launch_failure_prob
     annual_failure_prob revenue_per_clear_day_usd clear_days_mu
     clear_days_sigma ops_cost_per_year_usd revenue_growth_pct_per_year : ℚ) :
    Nat → Rng → List ℚ
  | 0, _ => []
  | n + 1, r =>
    let p := runTrial mission_duration_years total_budget_usd launch_cost_usd
      satellite_cost_usd launch_failure_prob annual_failure_prob
      revenue_per_clear_day_usd clear_days_mu clear_days_sigma
      ops_cost_per_year_usd revenue_growth_pct_per_year r
    p.1 :: runTrials mission_duration_years total_budget_usd launch_cost_usd
      satellite_cost_usd launch_failure_prob annual_failure_prob
      revenue_per_clear_day_usd clear_days_mu clear_days_sigma
      ops_cost_per_year_usd revenue_growth_pct_per_year n p.2

/-- `run_monte_carlo` (simulator.py lines 48-109): seeds a generator from
`rng_seed` (defaulting to 42, exactly as in the source signature) and runs
`n_simulations` trials, returning the net-profit array. -/
def run_monte_carlo (entropy : Nat → Nat → ℚ) (n_simulations : Nat)
    (mission_duration_years : Nat)
    (total_budget_usd launch_cost_usd satellite_cost_usd launch_failure_prob
     annual_failure_prob revenue_per_clear_day_usd clear_days_mu
     clear_days_sigma ops_cost_per_year_usd revenue_growth_pct_per_year : ℚ)
    (rng_seed : Nat := 42) : List ℚ :=
  runTrials mission_duration_years total_budget_usd launch_cost_usd
    satellite_cost_usd launch_failure_prob annual_failure_prob
    revenue_per_clear_day_usd clear_days_mu clear_days_sigma
    ops_cost_per_year_usd revenue_growth_pct_per_year n_simulations
    (default_rng entropy rng_seed)

/-- Python `round(x, 1)` embedded as exact decimal rounding to 1 digit.
(Python's float `round` is round-half-even on binary floats; the embedding
rounds the exact rational, which agrees except on exact half-ulp ties.) -/
def round1 (x : ℚ) : ℚ := ((round (x * 10) : ℤ) : ℚ) / 10

/-- Python `round(x, 2)` embedded as exact decimal rounding to 2 digits. -/
def round2 (x : ℚ) : ℚ := ((round (x * 100) : ℤ) : ℚ) / 100

/-- Python `round(x, 3)` embedded as exact decimal rounding to 3 digits. -/
def round3 (x : ℚ) : ℚ := ((round (x * 1000) : ℤ) : ℚ) / 1000

/-- Linear interpolation into a (sorted) list at fractional index `h`:
`s[⌊h⌋] + (h - ⌊h⌋) * (s[⌊h⌋+1] - s[⌊h⌋])`, with the upper sample clamped to
the lower one when `⌊h⌋ + 1` is out of range (NumPy clamps likewise, and the
interpolation weight is then 0 for in-contract `h`). -/
def interp (s : List ℚ) (h : ℚ) : ℚ :=
  let lo := (⌊h⌋).toNat
  let x := s.getD lo 0
  let y := s.getD (lo + 1) x
  x + (h - (lo : ℚ)) * (y - x)

/-- `np.percentile(l, q)` with the default linear interpolation: sort the
data and interpolate at fractional index `q/100 * (n - 1)`. -/
def percentile (l : List ℚ) (q : ℚ) : ℚ :=
  interp (l.insertionSort (· ≤ ·)) (q * ((l.length : ℚ) - 1) / 100)

/-- `arr.min()` over a nonempty embedded array (0 on the empty list, which
`compute_simulation` never produces for `n_simulations ≥ 1`). -/
def listMin (l : List ℚ) : ℚ :=
  match l with
  | [] => 0
  | x :: xs => xs.foldl min x

/-- `arr.max()` over a nonempty embedded array. -/
def listMax (l : List ℚ) : ℚ :=
  match l with
  | [] => 0
  | x :: xs => xs.foldl max x

/-- Lower edge of `np.histogram`'s bin range: NumPy expands a zero-width
data range `[v, v]` to `[v - 0.5, v + 0.5]`. -/
def histLo (mn mx : ℚ) : ℚ := if mn = mx then mn - 1 / 2 else mn

/-- Upper edge of `np.histogram`'s bin range (zero-width ranges expand). -/
def histHi (mn mx : ℚ) : ℚ := if mn = mx then mx + 1 / 2 else mx

/-- Bin index assigned by `np.histogram(·, bins=30)` to a data point `x` of
`[lo, hi]`: bins are half-open `[edge_i, edge_{i+1})` except the last, which
is closed — equivalently `min 29 ⌊(x - lo) * 30 / (hi - lo)⌋` on `[lo, hi]`. -/
def binIdx (lo hi x : ℚ) : Nat :=
  min 29 (⌊(x - lo) * 30 / (hi - lo)⌋).toNat

/-- The `i`-th of the 31 equally spaced bin edges of `np.histogram(·, 30)`. -/
def histEdge (lo hi : ℚ) (i : Nat) : ℚ :=
  lo + (i : ℚ) * (hi - lo) / 30

/-- One entry of the `histogram` list built in `compute_simulation`
(lines 165-174). -/
structure HistBin where
  bin_start : ℚ
  bin_end : ℚ
  count : Nat
  pct : ℚ
  is_profit : Bool
deriving DecidableEq, Repr

/-- The 30-bin histogram list built in `compute_simulation` (lines 164-174):
`np.histogram(net_profits, bins=30)` followed by the per-bin dict
comprehension (edges scaled to millions, count, percentage of n, and the
`is_profit` flag for a strictly positive lower edge). -/
def histogramOf (net_profits : List ℚ) (n_simulations : Nat) : List HistBin :=
  let mn := listMin net_profits
  let mx := listMax net_profits
  let lo := histLo mn mx
  let hi := histHi mn mx
  (List.range 30).map (fun i =>
    let c := net_profits.countP (fun x => binIdx lo hi x == i)
    { bin_start := round3 (histEdge lo hi i / 1000000)
      bin_end := round3 (histEdge lo hi (i + 1) / 1000000)
      count := c
      pct := round2 ((c : ℚ) / (n_simulations : ℚ) * 100)
      is_profit := decide (0 < histEdge lo hi i) })

/-- One entry of the fan chart built in `_build_fan_chart` (lines 273-280). -/
structure FanPoint where
  year : Nat
  p10 : ℚ
  p25 : ℚ
  p50 : ℚ
  p75 : ℚ
  p90 : ℚ
deriving DecidableEq, Repr

/-- The `percentiles` sub-dict of `compute_simulation`'s result. -/
structure Percentiles where
  p5 : ℚ
  p10 : ℚ
  p25 : ℚ
  p50 : ℚ
  p75 : ℚ
  p90 : ℚ
  p95 : ℚ
deriving DecidableEq, Repr

/-- The result dict of `compute_simulation` (lines 208-229). -/
structure SimResult where
  n_simulations : Nat
  mission_duration_years : Nat
  mission_type : String
  total_investment_usd : ℚ
  profitable_pct : ℚ
  total_loss_pct : ℚ
  verdict : String
  verdict_color : String
  roi_p50_pct : ℚ
  percentiles : Percentiles
  histogram : List HistBin
  fan_chart : List FanPoint
deriving DecidableEq, Repr

/-- The `for year in range(1, mission_duration_years + 1)` loop of
`_build_fan_chart` (lines 257-268), producing the cumulative-profit entries
for years `1..duration` of one tracked trial. Once dead, each remaining year
copies the running cumulative value forward without consuming draws; the
death year charges one year of ops cost; a survived year adds
`clear_days * revenue_per_clear_day_usd - ops_cost_per_year_usd` — note: no
growth factor and no noise factor in the source. -/
def fanYears (annual_failure_prob clear_days_mu clear_days_sigma
    revenue_per_clear_day_usd ops_cost_per_year_usd : ℚ) :
    Nat → ℚ → Bool → Rng → List ℚ × Rng
  | 0, _, _, r => ([], r)
  | fuel + 1, cumulative, alive, r =>
    if alive = false then
      let rest := fanYears annual_failure_prob clear_days_mu clear_days_sigma
        revenue_per_clear_day_usd ops_cost_per_year_usd fuel cumulative false r
      (cumulative :: rest.1, rest.2)
    else
      let u := rand r
      if u.1 < annual_failure_prob then
        let c := cumulative - ops_cost_per_year_usd
        let rest := fanYears annual_failure_prob clear_days_mu clear_days_sigma
          revenue_per_clear_day_usd ops_cost_per_year_usd fuel c false u.2
        (c :: rest.1, rest.2)
      else
        let cd := normalDraw clear_days_mu clear_days_sigma u.2
        let c := cumulative + max 0 cd.1 * revenue_per_clear_day_usd -
          ops_cost_per_year_usd
        let rest := fanYears annual_failure_prob clear_days_mu clear_days_sigma
          revenue_per_clear_day_usd ops_cost_per_year_usd fuel c true cd.2
        (c :: rest.1, rest.2)

/-- One tracked trial of `_build_fan_chart` (lines 250-268): the row
`yearly_profits[i, :]` of length `mission_duration_years + 1`, slot 0 fixed
at `-total_investment`; a launch failure pins the whole row there. -/
def fanTrial (mission_duration_years : Nat)
    (total_investment launch_failure_prob annual_failure_prob
     revenue_per_clear_day_usd clear_days_mu clear_days_sigma
     ops_cost_per_year_usd : ℚ) (r : Rng) : List ℚ × Rng :=
  let u := rand r
  if u.1 < launch_failure_prob then
    (List.replicate (mission_duration_years + 1) (-total_investment), u.2)
  else
    let rest := fanYears annual_failure_prob clear_days_mu clear_days_sigma
      revenue_per_clear_day_usd ops_cost_per_year_usd mission_duration_years
      (-total_investment) true u.2
    (-total_investment :: rest.1, rest.2)

/-- The `for i in range(n_simulations)` loop of `_build_fan_chart`: the rows
of `yearly_profits`, all trials consuming the shared secondary generator. -/
def fanTrials (mission_duration_years : Nat)
    (total_investment launch_failure_prob annual_failure_prob
     revenue_per_clear_day_usd clear_days_mu clear_days_sigma
     ops_cost_per_year_usd : ℚ) : Nat → Rng → List (List ℚ) × Rng
  | 0, r => ([], r)
  | n + 1, r =>
    let row := fanTrial mission_duration_years total_investment
      launch_failure_prob annual_failure_prob revenue_per_clear_day_usd
      clear_days_mu clear_days_sigma ops_cost_per_year_usd r
    let rest := fanTrials mission_duration_years total_investment
      launch_failure_prob annual_failure_prob revenue_per_clear_day_usd
      clear_days_mu clear_days_sigma ops_cost_per_year_usd n row.2
    (row.1 :: rest.1, rest.2)

/-- Percentile aggregation of `_build_fan_chart` (lines 270-281) applied to
tracked rows produced from a given generator state: for each year column,
the `{p10,p25,p50,p75,p90}` bands scaled to millions. -/
def fanChartFromRng (n_simulations mission_duration_years : Nat)
    (total_investment launch_failure_prob annual_failure_prob
     revenue_per_clear_day_usd clear_days_mu clear_days_sigma
     ops_cost_per_year_usd : ℚ) (r : Rng) : List FanPoint :=
  let rows := (fanTrials mission_duration_years total_investment
    launch_failure_prob annual_failure_prob revenue_per_clear_day_usd
    clear_days_mu clear_days_sigma ops_cost_per_year_usd n_simulations r).1
  (List.range (mission_duration_years + 1)).map (fun year =>
    let col := rows.map (fun row => row.getD year 0)
    { year := year
      p10 := round3 (percentile col 10 / 1000000)
      p25 := round3 (percentile col 25 / 1000000)
      p50 := round3 (percentile col 50 / 1000000)
      p75 := round3 (percentile col 75 / 1000000)
      p90 := round3 (percentile col 90 / 1000000) })

/-- `_build_fan_chart` (lines 232-281): note the generator is created inside
with the fixed seed 99, and the function receives no
`revenue_growth_pct_per_year` argument at all. -/
def build_fan_chart (entropy : Nat → Nat → ℚ)
    (n_simulations mission_duration_years : Nat)
    (total_investment launch_failure_prob annual_failure_prob
     revenue_per_clear_day_usd clear_days_mu clear_days_sigma
     ops_cost_per_year_usd : ℚ) : List FanPoint :=
  fanChartFromRng n_simulations mission_duration_years total_investment
    launch_failure_prob annual_failure_prob revenue_per_clear_day_usd
    clear_days_mu clear_days_sigma ops_cost_per_year_usd
    (default_rng entropy 99)

/-- `compute_simulation` (lines 112-229): the full pipeline — primary batch
(seed defaulted to 42 by `run_monte_carlo`), percentiles, profitability
rates, 30-bin histogram, fan chart (capped at 2000 trials, seed 99 inside
`build_fan_chart`), ROI, verdict, and result assembly. -/
def compute_simulation (entropy : Nat → Nat → ℚ)
    (total_budget_usd launch_cost_usd satellite_cost_usd ops_cost_per_year_usd
     launch_failure_prob annual_failure_prob revenue_per_clear_day_usd
     clear_days_mu clear_days_sigma revenue_growth_pct_per_year : ℚ)
    (mission_duration_years : Nat) (n_simulations : Nat)
    (mission_type : String) : SimResult :=
  let net_profits := run_monte_carlo entropy n_simulations
    mission_duration_years total_budget_usd launch_cost_usd satellite_cost_usd
    launch_failure_prob annual_failure_prob revenue_per_clear_day_usd
    clear_days_mu clear_days_sigma ops_cost_per_year_usd
    revenue_growth_pct_per_year
  let p5 := percentile net_profits 5
  let p10 := percentile net_profits 10
  let p25 := percentile net_profits 25
  let p50 := percentile net_profits 50
  let p75 := percentile net_profits 75
  let p90 := percentile net_profits 90
  let p95 := percentile net_profits 95
  let profitable_pct : ℚ :=
    (net_profits.countP (fun x => decide (0 < x)) : ℚ) / (n_simulations : ℚ) * 100
  let total_loss_pct : ℚ :=
    (net_profits.countP
      (fun x => decide (x ≤ -(launch_cost_usd + satellite_cost_usd))) : ℚ) /
      (n_simulations : ℚ) * 100
  let histogram : List HistBin := histogramOf net_profits n_simulations
  let fan_chart := build_fan_chart entropy (min n_simulations 2000)
    mission_duration_years (launch_cost_usd + satellite_cost_usd)
    launch_failure_prob annual_failure_prob revenue_per_clear_day_usd
    clear_days_mu clear_days_sigma ops_cost_per_year_usd
  let total_investment := launch_cost_usd + satellite_cost_usd
  let roi_p50 : ℚ :=
    if 0 < total_investment then p50 / total_investment * 100 else 0
  let vp : String × String :=
    if 70 ≤ profitable_pct then ("Strong Investment", "#10B981")
    else if 50 ≤ profitable_pct then ("Moderate Risk", "#F59E0B")
    else if 30 ≤ profitable_pct then ("High Risk", "#EF4444")
    else ("Very High Risk", "#6B7280")
  { n_simulations := n_simulations
    mission_duration_years := mission_duration_years
    mission_type := mission_type
    total_investment_usd := total_investment
    profitable_pct := round1 profitable_pct
    total_loss_pct := round1 total_loss_pct
    verdict := vp.1
    verdict_color := vp.2
    roi_p50_pct := round1 roi_p50
    percentiles :=
      { p5 := round3 (p5 / 1000000)
        p10 := round3 (p10 / 1000000)
        p25 := round3 (p25 / 1000000)
        p50 := round3 (p50 / 1000000)
        p75 := round3 (p75 / 1000000)
        p90 := round3 (p90 / 1000000)
        p95 := round3 (p95 / 1000000) }
    histogram := histogram
    fan_chart := fan_chart }

/-- Spec-side description of the revenues the scalar trial loop accrues: the
list of `year_revenue` values generated in the alive, non-failure years, in
loop order, reading the same draws at the same stream positions as
`runYears`. Used to state that the trial's cumulative revenue is exactly the
sum of the per-year revenues accrued while the asset was alive. -/
def aliveRevenues (annual_failure_prob revenue_per_clear_day_usd clear_days_mu
    clear_days_sigma revenue_growth_pct_per_year : ℚ) :
    Nat → Nat → Bool → Rng → List ℚ
  | 0, _, _, _ => []
  | fuel + 1, year, alive, r =>
    if alive = false then []
    else
      let u := rand r
      if u.1 < annual_failure_prob then []
      else
        let cd := normalDraw clear_days_mu clear_days_sigma u.2
        let noise := uniformDraw (17 / 20) (23 / 20) cd.2
        (max 0 cd.1 * revenue_per_clear_day_usd *
            (1 + revenue_growth_pct_per_year) ^ year * noise.1) ::
          aliveRevenues annual_failure_prob revenue_per_clear_day_usd
            clear_days_mu clear_days_sigma revenue_growth_pct_per_year
            fuel (year + 1) true noise.2

section Lemmas

lemma aliveRevenues_dead (af rd mu sg g : ℚ) (fuel year : Nat) (r : Rng) :
    aliveRevenues af rd mu sg g fuel year false r = [] := by
  cases fuel <;> simp [aliveRevenues]

/-- The trial's cumulative revenue is the initial revenue plus the sum of
the per-year revenues accrued while alive. -/
lemma runYears_cumulative_revenue (af rd mu sg oc g : ℚ) :
    ∀ (fuel year : Nat) (s : TrialState) (r : Rng),
      (runYears af rd mu sg oc g fuel year s r).1.cumulative_revenue =
        s.cumulative_revenue +
          (aliveRevenues af rd mu sg g fuel year s.satellite_alive r).sum
  | 0, year, s, r => by simp [runYears, aliveRevenues]
  | fuel + 1, year, s, r => by
    by_cases hal : s.satellite_alive = false
    · simp [runYears, aliveRevenues, hal]
    · have hal' : s.satellite_alive = true := by
        cases h : s.satellite_alive
        · exact absurd h hal
        · rfl
      by_cases hf : (rand r).1 < af
      · simp only [runYears, aliveRevenues, hal', hf, if_true,
          Bool.true_eq_false, if_false]
        rw [runYears_cumulative_revenue af rd mu sg oc g fuel]
        simp [aliveRevenues_dead]
      · simp only [runYears, aliveRevenues, hal', hf, if_true,
          Bool.true_eq_false, if_false]
        rw [runYears_cumulative_revenue af rd mu sg oc g fuel]
        simp only [List.sum_cons]
        ring

/-- The remaining-budget slot of the trial state is write-only: the revenue,
the liveness flag and the generator state after the year loop do not depend
on it. -/
lemma runYears_budget_indep (af rd mu sg oc g : ℚ) :
    ∀ (fuel year : Nat) (v : ℚ) (al : Bool) (a b : ℚ) (r : Rng),
      (runYears af rd mu sg oc g fuel year ⟨a, v, al⟩ r).1.cumulative_revenue =
        (runYears af rd mu sg oc g fuel year ⟨b, v, al⟩ r).1.cumulative_revenue ∧
      (runYears af rd mu sg oc g fuel year ⟨a, v, al⟩ r).1.satellite_alive =
        (runYears af rd mu sg oc g fuel year ⟨b, v, al⟩ r).1.satellite_alive ∧
      (runYears af rd mu sg oc g fuel year ⟨a, v, al⟩ r).2 =
        (runYears af rd mu sg oc g fuel year ⟨b, v, al⟩ r).2
  | 0, year, v, al, a, b, r => by simp [runYears]
  | fuel + 1, year, v, al, a, b, r => by
    by_cases hal : al = false
    · simp [runYears, hal]
    · by_cases hf : (rand r).1 < af
      · simpa [runYears, hal, hf] using
          runYears_budget_indep af rd mu sg oc g fuel (year + 1) v false
            (a - oc) (b - oc) (rand r).2
      · simpa [runYears, hal, hf] using
          runYears_budget_indep af rd mu sg oc g fuel (year + 1)
            (v + max 0 (normalDraw mu sg (rand r).2).1 * rd * (1 + g) ^ year *
              (uniformDraw (17 / 20) (23 / 20) (normalDraw mu sg (rand r).2).2).1)
            true (a - oc) (b - oc)
            (uniformDraw (17 / 20) (23 / 20) (normalDraw mu sg (rand r).2).2).2

/-- One scalar trial is insensitive to `total_budget_usd`, both in its
outcome and in the generator state it hands to the next trial. -/
lemma runTrial_budget_indep (dur : Nat) (tb tb' lc sc lf af rd mu sg oc g : ℚ)
    (r : Rng) :
    runTrial dur tb lc sc lf af rd mu sg oc g r =
      runTrial dur tb' lc sc lf af rd mu sg oc g r := by
  by_cases hf : (rand r).1 < lf
  · simp [runTrial, hf]
  · have h := runYears_budget_indep af rd mu sg oc g dur 0 0 true
      (tb - (lc + sc)) (tb' - (lc + sc)) (rand r).2
    simp only [runTrial, hf, if_false, Bool.false_eq_true]
    exact Prod.ext (by rw [h.1]) h.2.2

/-- The whole outcome array is insensitive to `total_budget_usd`. -/
lemma runTrials_budget_indep (dur : Nat) (tb tb' lc sc lf af rd mu sg oc g : ℚ) :
    ∀ (n : Nat) (r : Rng),
      runTrials dur tb lc sc lf af rd mu sg oc g n r =
        runTrials dur tb' lc sc lf af rd mu sg oc g n r
  | 0, r => rfl
  | n + 1, r => by
    simp only [runTrials]
    rw [runTrial_budget_indep dur tb tb' lc sc lf af rd mu sg oc g r,
      runTrials_budget_indep dur tb tb' lc sc lf af rd mu sg oc g n]

lemma runTrials_length (dur : Nat) (tb lc sc lf af rd mu sg oc g : ℚ) :
    ∀ (n : Nat) (r : Rng),
      (runTrials dur tb lc sc lf af rd mu sg oc g n r).length = n
  | 0, _ => rfl
  | n + 1, r => by
    simp [runTrials, runTrials_length dur tb lc sc lf af rd mu sg oc g n]

lemma run_monte_carlo_length (e : Nat → Nat → ℚ) (n dur : Nat)
    (tb lc sc lf af rd mu sg oc g : ℚ) (seed : Nat) :
    (run_monte_carlo e n dur tb lc sc lf af rd mu sg oc g seed).length = n :=
  runTrials_length dur tb lc sc lf af rd mu sg oc g n _

/-- Every data point is assigned a bin index in `0..29`. -/
lemma binIdx_lt (lo hi x : ℚ) : binIdx lo hi x < 30 :=
  Nat.lt_succ_of_le (min_le_left _ _)

lemma sum_map_ite_eq_of_lt {m k : Nat} (h : m < k) :
    ((List.range k).map (fun i => if m = i then 1 else 0)).sum = 1 := by
  induction k with
  | zero => omega
  | succ k ih =>
    rw [List.range_succ, List.map_append, List.sum_append]
    by_cases hm : m < k
    · have hmk : m ≠ k := Nat.ne_of_lt hm
      simp [ih hm, hmk]
    · have hmk : m = k := by omega
      subst hmk
      have hz : ((List.range m).map (fun i => if m = i then 1 else 0)).sum = 0 := by
        apply List.sum_eq_zero
        intro x hx
        obtain ⟨i, hi, rfl⟩ := List.mem_map.mp hx
        have : m ≠ i := by
          have := List.mem_range.mp hi
          omega
        simp [this]
      simp [hz]

/-- Counting the preimages of each of `0..k-1` under a bin-index function
accounts for every data point whose index lands below `k`. -/
lemma sum_countP_eq_length (f : ℚ → Nat) (k : Nat) :
    ∀ l : List ℚ, (∀ x ∈ l, f x < k) →
      ((List.range k).map (fun i => l.countP (fun x => f x == i))).sum = l.length
  | [], _ => by simp
  | x :: l, h => by
    have hx : f x < k := h x (List.mem_cons_self x l)
    have hl : ∀ y ∈ l, f y < k := fun y hy => h y (List.mem_cons_of_mem x hy)
    have hsplit : ∀ i : Nat,
        (x :: l).countP (fun y => f y == i) =
          l.countP (fun y => f y == i) + (if f x = i then 1 else 0) := by
      intro i
      rw [List.countP_cons]
      by_cases hfx : f x = i <;> simp [hfx]
    calc ((List.range k).map (fun i => (x :: l).countP (fun y => f y == i))).sum
        = ((List.range k).map (fun i =>
            l.countP (fun y => f y == i) + (if f x = i then 1 else 0))).sum := by
          congr 1
          exact List.map_congr_left (fun i _ => hsplit i)
      _ = ((List.range k).map (fun i => l.countP (fun y => f y == i))).sum +
            ((List.range k).map (fun i => if f x = i then 1 else 0)).sum := by
          rw [← List.sum_map_add]
      _ = l.length + 1 := by
          rw [sum_countP_eq_length f k l hl, sum_map_ite_eq_of_lt hx]
      _ = (x :: l).length := by simp

lemma getD_succ_ge {s : List ℚ} (hs : s.Sorted (· ≤ ·)) {l : Nat}
    (hl : l < s.length) : s.getD l 0 ≤ s.getD (l + 1) (s.getD l 0) := by
  by_cases hr : l + 1 < s.length
  · rw [List.getD_eq_getElem s _ hr, List.getD_eq_getElem s _ hl]
    have h := hs.rel_get_of_le
      (show (⟨l, hl⟩ : Fin s.length) ≤ ⟨l + 1, hr⟩ from by
        simp [Fin.mk_le_mk])
    simpa using h
  · rw [List.getD_eq_default s (s.getD l 0) (show s.length ≤ l + 1 by omega)]

lemma sorted_getD_le {s : List ℚ} (hs : s.Sorted (· ≤ ·)) {i j : Nat}
    (hij : i ≤ j) (hj : j < s.length) : s.getD i 0 ≤ s.getD j 0 := by
  have hi : i < s.length := lt_of_le_of_lt hij hj
  rw [List.getD_eq_getElem s _ hi, List.getD_eq_getElem s _ hj]
  have h := hs.rel_get_of_le
    (show (⟨i, hi⟩ : Fin s.length) ≤ ⟨j, hj⟩ from by simp [Fin.mk_le_mk, hij])
  simpa using h

/-- Linear interpolation into a sorted list is monotone in the fractional
index, over the in-contract index range `[0, length - 1]`. -/
lemma interp_mono {s : List ℚ} (hs : s.Sorted (· ≤ ·)) (hne : s ≠ [])
    {h₁ h₂ : ℚ} (h0 : 0 ≤ h₁) (h12 : h₁ ≤ h₂)
    (hup : h₂ ≤ (s.length : ℚ) - 1) : interp s h₁ ≤ interp s h₂ := by
  have hlen : 0 < s.length := List.length_pos.mpr hne
  have h02 : 0 ≤ h₂ := le_trans h0 h12
  have hf1 : (0 : ℤ) ≤ ⌊h₁⌋ := Int.floor_nonneg.mpr h0
  have hf2 : (0 : ℤ) ≤ ⌊h₂⌋ := Int.floor_nonneg.mpr h02
  have hc1 : (((⌊h₁⌋).toNat : ℚ)) = ((⌊h₁⌋ : ℤ) : ℚ) := by
    exact_mod_cast congrArg (fun z : ℤ => (z : ℚ)) (Int.toNat_of_nonneg hf1)
  have hc2 : (((⌊h₂⌋).toNat : ℚ)) = ((⌊h₂⌋ : ℤ) : ℚ) := by
    exact_mod_cast congrArg (fun z : ℤ => (z : ℚ)) (Int.toNat_of_nonneg hf2)
  simp only [interp]
  set l₁ := (⌊h₁⌋).toNat with hl₁def
  set l₂ := (⌊h₂⌋).toNat with hl₂def
  have hle1 : (l₁ : ℚ) ≤ h₁ := by rw [hc1]; exact Int.floor_le h₁
  have hlt1 : h₁ < (l₁ : ℚ) + 1 := by
    rw [hc1]
    exact_mod_cast Int.lt_floor_add_one h₁
  have hle2 : (l₂ : ℚ) ≤ h₂ := by rw [hc2]; exact Int.floor_le h₂
  have hl12 : l₁ ≤ l₂ := by
    have h := Int.floor_mono h12
    exact Int.toNat_le_toNat h
  have hl2n : l₂ < s.length := by
    have hq : (l₂ : ℚ) + 1 ≤ (s.length : ℚ) := by linarith
    exact_mod_cast hq
  have hl1n : l₁ < s.length := lt_of_le_of_lt hl12 hl2n
  have hxy1 : s.getD l₁ 0 ≤ s.getD (l₁ + 1) (s.getD l₁ 0) := getD_succ_ge hs hl1n
  have hxy2 : s.getD l₂ 0 ≤ s.getD (l₂ + 1) (s.getD l₂ 0) := getD_succ_ge hs hl2n
  rcases eq_or_lt_of_le hl12 with heq | hlt
  · rw [heq]
    have hmul := mul_le_mul_of_nonneg_right
      (show h₁ - (l₂ : ℚ) ≤ h₂ - (l₂ : ℚ) by linarith)
      (sub_nonneg.mpr (heq ▸ hxy1))
    linarith
  · have hub : s.getD l₁ 0 + (h₁ - (l₁ : ℚ)) *
        (s.getD (l₁ + 1) (s.getD l₁ 0) - s.getD l₁ 0) ≤
        s.getD (l₁ + 1) (s.getD l₁ 0) := by
      have hmul := mul_le_mul_of_nonneg_right
        (show h₁ - (l₁ : ℚ) ≤ 1 by linarith) (sub_nonneg.mpr hxy1)
      linarith
    have hmid : s.getD (l₁ + 1) (s.getD l₁ 0) ≤ s.getD l₂ 0 := by
      have hr : l₁ + 1 < s.length := lt_of_le_of_lt hlt hl2n
      rw [List.getD_eq_getElem s _ hr, ← List.getD_eq_getElem s 0 hr]
      exact sorted_getD_le hs hlt hl2n
    have hlb : s.getD l₂ 0 ≤ s.getD l₂ 0 + (h₂ - (l₂ : ℚ)) *
        (s.getD (l₂ + 1) (s.getD l₂ 0) - s.getD l₂ 0) := by
      have hmul := mul_nonneg (show (0 : ℚ) ≤ h₂ - (l₂ : ℚ) by linarith)
        (sub_nonneg.mpr hxy2)
      linarith
    linarith

/-- Linear interpolation into a constant list yields the constant. -/
lemma interp_const {s : List ℚ} {c : ℚ} (hc : ∀ x ∈ s, x = c) (hne : s ≠ [])
    {h : ℚ} (h0 : 0 ≤ h) (hup : h ≤ (s.length : ℚ) - 1) : interp s h = c := by
  have hf : (0 : ℤ) ≤ ⌊h⌋ := Int.floor_nonneg.mpr h0
  have hcast : (((⌊h⌋).toNat : ℚ)) = ((⌊h⌋ : ℤ) : ℚ) := by
    exact_mod_cast congrArg (fun z : ℤ => (z : ℚ)) (Int.toNat_of_nonneg hf)
  simp only [interp]
  set l₀ := (⌊h⌋).toNat with hl₀def
  have hle : (l₀ : ℚ) ≤ h := by rw [hcast]; exact Int.floor_le h
  have hl0n : l₀ < s.length := by
    have hq : (l₀ : ℚ) + 1 ≤ (s.length : ℚ) := by linarith
    exact_mod_cast hq
  have hx : s.getD l₀ 0 = c := by
    rw [List.getD_eq_getElem s _ hl0n]
    exact hc _ (s.getElem_mem hl0n)
  have hy : s.getD (l₀ + 1) (s.getD l₀ 0) = c := by
    by_cases hr : l₀ + 1 < s.length
    · rw [List.getD_eq_getElem s _ hr]
      exact hc _ (s.getElem_mem hr)
    · rw [List.getD_eq_default _ _ (by omega)]
      exact hx
  rw [hy, hx]
  ring

/-- `np.percentile` is monotone in the rank over `[0, 100]`. -/
lemma percentile_mono {l : List ℚ} (hne : l ≠ []) {q₁ q₂ : ℚ}
    (h0 : 0 ≤ q₁) (h12 : q₁ ≤ q₂) (h100 : q₂ ≤ 100) :
    percentile l q₁ ≤ percentile l q₂ := by
  unfold percentile
  have hs := List.sorted_insertionSort (· ≤ ·) l
  have hlen : (l.insertionSort (· ≤ ·)).length = l.length :=
    (List.perm_insertionSort (· ≤ ·) l).length_eq
  have hpos : 0 < l.length := List.length_pos.mpr hne
  have hne' : l.insertionSort (· ≤ ·) ≠ [] := by
    intro hnil
    have h0' : (l.insertionSort (· ≤ ·)).length = 0 := by rw [hnil]; rfl
    rw [hlen] at h0'
    exact hne (List.length_eq_zero.mp h0')
  have hd : (0 : ℚ) ≤ (l.length : ℚ) - 1 := by
    have : (1 : ℚ) ≤ (l.length : ℚ) := by exact_mod_cast hpos
    linarith
  apply interp_mono hs hne'
  · exact div_nonneg (mul_nonneg h0 hd) (by norm_num)
  · have := mul_le_mul_of_nonneg_right h12 hd
    linarith
  · rw [hlen]
    have := mul_le_mul_of_nonneg_right h100 hd
    linarith

/-- `np.percentile` of a constant array is that constant, for ranks in
`[0, 100]`. -/
lemma percentile_const {l : List ℚ} {c : ℚ} (hc : ∀ x ∈ l, x = c)
    (hne : l ≠ []) {q : ℚ} (h0 : 0 ≤ q) (h100 : q ≤ 100) :
    percentile l q = c := by
  unfold percentile
  have hlen : (l.insertionSort (· ≤ ·)).length = l.length :=
    (List.perm_insertionSort (· ≤ ·) l).length_eq
  have hpos : 0 < l.length := List.length_pos.mpr hne
  have hne' : l.insertionSort (· ≤ ·) ≠ [] := by
    intro hnil
    have h0' : (l.insertionSort (· ≤ ·)).length = 0 := by rw [hnil]; rfl
    rw [hlen] at h0'
    exact hne (List.length_eq_zero.mp h0')
  have hd : (0 : ℚ) ≤ (l.length : ℚ) - 1 := by
    have : (1 : ℚ) ≤ (l.length : ℚ) := by exact_mod_cast hpos
    linarith
  have hc' : ∀ x ∈ l.insertionSort (· ≤ ·), x = c := fun x hx =>
    hc x ((List.perm_insertionSort (· ≤ ·) l).mem_iff.mp hx)
  apply interp_const hc' hne'
  · exact div_nonneg (mul_nonneg h0 hd) (by norm_num)
  · rw [hlen]
    have := mul_le_mul_of_nonneg_right h100 hd
    linarith

lemma percentile_nil (q : ℚ) : percentile [] q = 0 := by
  simp [percentile, interp]

/-- Decimal rounding to 3 digits is monotone. -/
lemma round3_mono {x y : ℚ} (h : x ≤ y) : round3 x ≤ round3 y := by
  unfold round3
  have hr : round (x * 1000) ≤ round (y * 1000) := by
    rw [round_eq, round_eq]
    exact Int.floor_mono (by linarith)
  have hc : ((round (x * 1000) : ℤ) : ℚ) ≤ ((round (y * 1000) : ℤ) : ℚ) := by
    exact_mod_cast hr
  linarith

lemma round1_zero : round1 0 = 0 := by
  simp [round1]

lemma histogramOf_length (l : List ℚ) (n : Nat) : (histogramOf l n).length = 30 := by
  simp [histogramOf]

/-- Every data point lands in exactly one of the 30 bins, so the bin counts
sum to the data length. -/
lemma histogramOf_count_sum (l : List ℚ) (n : Nat) :
    ((histogramOf l n).map (fun b => b.count)).sum = l.length := by
  simp only [histogramOf, List.map_map, Function.comp]
  exact sum_countP_eq_length
    (binIdx (histLo (listMin l) (listMax l)) (histHi (listMin l) (listMax l)))
    30 l (fun x _ => binIdx_lt _ _ _)

lemma compute_simulation_percentiles (e : Nat → Nat → ℚ)
    (tb lc sc oc lf af rd mu sg g : ℚ) (dur n : Nat) (mt : String) :
    (compute_simulation e tb lc sc oc lf af rd mu sg g dur n mt).percentiles =
      { p5 := round3 (percentile
          (run_monte_carlo e n dur tb lc sc lf af rd mu sg oc g) 5 / 1000000)
        p10 := round3 (percentile
          (run_monte_carlo e n dur tb lc sc lf af rd mu sg oc g) 10 / 1000000)
        p25 := round3 (percentile
          (run_monte_carlo e n dur tb lc sc lf af rd mu sg oc g) 25 / 1000000)
        p50 := round3 (percentile
          (run_monte_carlo e n dur tb lc sc lf af rd mu sg oc g) 50 / 1000000)
        p75 := round3 (percentile
          (run_monte_carlo e n dur tb lc sc lf af rd mu sg oc g) 75 / 1000000)
        p90 := round3 (percentile
          (run_monte_carlo e n dur tb lc sc lf af rd mu sg oc g) 90 / 1000000)
        p95 := round3 (percentile
          (run_monte_carlo e n dur tb lc sc lf af rd mu sg oc g) 95 / 1000000) } :=
  rfl

lemma compute_simulation_histogram (e : Nat → Nat → ℚ)
    (tb lc sc oc lf af rd mu sg g : ℚ) (dur n : Nat) (mt : String) :
    (compute_simulation e tb lc sc oc lf af rd mu sg g dur n mt).histogram =
      histogramOf (run_monte_carlo e n dur tb lc sc lf af rd mu sg oc g) n :=
  rfl

lemma compute_simulation_fan_chart (e : Nat → Nat → ℚ)
    (tb lc sc oc lf af rd mu sg g : ℚ) (dur n : Nat) (mt : String) :
    (compute_simulation e tb lc sc oc lf af rd mu sg g dur n mt).fan_chart =
      fanChartFromRng (min n 2000) dur (lc + sc) lf af rd mu sg oc
        (default_rng e 99) :=
  rfl

lemma compute_simulation_profitable_pct (e : Nat → Nat → ℚ)
    (tb lc sc oc lf af rd mu sg g : ℚ) (dur n : Nat) (mt : String) :
    (compute_simulation e tb lc sc oc lf af rd mu sg g dur n mt).profitable_pct =
      round1 (((run_monte_carlo e n dur tb lc sc lf af rd mu sg oc g).countP
          (fun x => decide (0 < x)) : ℚ) / (n : ℚ) * 100) :=
  rfl

/-- Slot 0 of every tracked fan-chart row is `-total_investment`. -/
lemma fanTrial_row_head (dur : Nat) (ti lf af rd mu sg oc : ℚ) (r : Rng) :
    ((fanTrial dur ti lf af rd mu sg oc r).1).getD 0 0 = -ti := by
  unfold fanTrial
  by_cases h : (rand r).1 < lf
  · simp [h, List.replicate_succ]
  · simp [h]

lemma fanTrials_row_head (dur : Nat) (ti lf af rd mu sg oc : ℚ) :
    ∀ (n : Nat) (r : Rng) (row : List ℚ),
      row ∈ (fanTrials dur ti lf af rd mu sg oc n r).1 → row.getD 0 0 = -ti
  | 0, r, row, h => by simp [fanTrials] at h
  | n + 1, r, row, h => by
    simp only [fanTrials, List.mem_cons] at h
    rcases h with h | h
    · rw [h]
      exact fanTrial_row_head dur ti lf af rd mu sg oc r
    · exact fanTrials_row_head dur ti lf af rd mu sg oc n _ row h

lemma fanTrials_length (dur : Nat) (ti lf af rd mu sg oc : ℚ) :
    ∀ (n : Nat) (r : Rng), (fanTrials dur ti lf af rd mu sg oc n r).1.length = n
  | 0, _ => rfl
  | n + 1, r => by
    simp [fanTrials, fanTrials_length dur ti lf af rd mu sg oc n]

/-- With `launch_failure_prob = 1` and a well-formed stream (every raw
uniform draw `< 1`), every trial fails at launch and the outcome array is
constantly `-(launch_cost + satellite_cost)`. -/
lemma runTrials_all_launch_fail (dur : Nat) (tb lc sc af rd mu sg oc g : ℚ)
    (ω : Nat → ℚ) (hw : ∀ k, ω k < 1) :
    ∀ (n k0 : Nat),
      runTrials dur tb lc sc 1 af rd mu sg oc g n ⟨ω, k0⟩ =
        List.replicate n (-(lc + sc))
  | 0, _ => rfl
  | n + 1, k0 => by
    simp only [runTrials, runTrial, rand, hw k0, if_true, List.replicate_succ]
    exact congrArg (List.cons _)
      (runTrials_all_launch_fail dur tb lc sc af rd mu sg oc g ω hw n (k0 + 1))

end Lemmas

section Claims

set_option maxRecDepth 100000

/-- C1: for every trial whose launch check succeeds, the scalar net-profit
outcome produced by the trial executor equals
`cumulative_revenue - total_investment - ops_cost_per_year * mission_duration_years`,
where `total_investment = launch_cost + satellite_cost` and the cumulative
revenue is the sum of the per-year revenues accrued while the asset was
alive (`aliveRevenues` lists exactly those year revenues, in loop order). -/
theorem C1_scalar_outcome_formula (dur : Nat)
    (tb lc sc lf af rd mu sg oc g : ℚ) (r : Rng)
    (hlaunch : ¬ (rand r).1 < lf) :
    (runTrial dur tb lc sc lf af rd mu sg oc g r).1 =
      (aliveRevenues af rd mu sg g dur 0 true (rand r).2).sum -
        (lc + sc) - oc * (dur : ℚ) := by
  simp only [runTrial, hlaunch, if_false]
  rw [runYears_cumulative_revenue]
  simp

/-- Witness for C1 at a concrete input: launch succeeds (draw 1/2, failure
probability 0) and the outcome is the accrued-revenue sum minus investment
minus the flat ops charge. -/
theorem C1_scalar_outcome_formula_witness :
    ¬ (rand (default_rng (fun _ _ => (1 : ℚ)/2) 42)).1 < 0 ∧
    (runTrial 2 100 2 3 0 0 1000 100 0 7 0
        (default_rng (fun _ _ => (1 : ℚ)/2) 42)).1 =
      (aliveRevenues 0 1000 100 0 0 2 0 true
          (rand (default_rng (fun _ _ => (1 : ℚ)/2) 42)).2).sum -
        (2 + 3) - 7 * ((2 : Nat) : ℚ) :=
  ⟨by norm_num [rand, default_rng],
   C1_scalar_outcome_formula 2 100 2 3 0 0 1000 100 0 7 0
     (default_rng (fun _ _ => (1 : ℚ)/2) 42) (by norm_num [rand, default_rng])⟩

/-- C2 counterexample: a trial that dies in year 1 of a 3-year mission
(entropy stream: draw 4, the year-1 failure check, returns 0 < 1/4; all
other draws 1/2). It survives year 0 with revenue
`100 * 1000 * 1 * 1 = 100000`, and its scalar outcome is
`100000 - 5 - 7*3 = 99974`: the flat charge `ops * duration` is the ONLY
operating-cost deduction in the outcome. The claim predicts an additional
deduction of the survived year's ops cost (outcome `99967`) because it takes
the in-loop deductions to feed the outcome; they in fact hit only the
write-only `remaining_budget`. The third conjunct certifies the asset is
indeed dead at the end of the year loop for this input. -/
theorem C2_counterexample :
    (run_monte_carlo (fun _ k => if k = 4 then 0 else (1 : ℚ)/2) 1 3 100 2 3 0
        (1/4) 1000 100 0 7 0).getD 0 0 = 99974 ∧
    (99974 : ℚ) = 100000 - (2 + 3) - 7 * 3 ∧
    (runYears (1/4) 1000 100 0 7 0 3 0 ⟨100 - (2 + 3), 0, true⟩
        (rand (default_rng (fun _ k => if k = 4 then 0 else (1 : ℚ)/2)
          42)).2).1.satellite_alive = false ∧
    (99974 : ℚ) ≠ 100000 - (2 + 3) - 7 * 3 - 7 := by
  refine ⟨by norm_num [run_monte_carlo, runTrials, runTrial, runYears, rand,
      normalDraw, uniformDraw, default_rng],
    by norm_num,
    by norm_num [runYears, rand, normalDraw, uniformDraw, default_rng],
    by norm_num⟩

/-- C2 amended: the flat charge `ops_cost_per_year * mission_duration_years`
is the only operating-cost deduction reflected in the scalar outcome; the
per-year deductions inside the loop are applied to `remaining_budget`, which
never flows into the outcome, so no trial (dying early or not) has the
operating cost of its survived years deducted twice. Stated as: the outcome
of every launched trial is `cumulative_revenue - total_investment -
ops * duration` exactly, and the outcome is independent of the budget the
in-loop deductions act on. -/
theorem C2_amended_single_flat_charge (dur : Nat)
    (tb tb' lc sc lf af rd mu sg oc g : ℚ) (r : Rng)
    (hlaunch : ¬ (rand r).1 < lf) :
    (runTrial dur tb lc sc lf af rd mu sg oc g r).1 =
        (runYears af rd mu sg oc g dur 0 ⟨tb - (lc + sc), 0, true⟩
          (rand r).2).1.cumulative_revenue - (lc + sc) - oc * (dur : ℚ) ∧
      (runTrial dur tb lc sc lf af rd mu sg oc g r).1 =
        (runTrial dur tb' lc sc lf af rd mu sg oc g r).1 := by
  constructor
  · simp only [runTrial, hlaunch, if_false]
  · exact congrArg Prod.fst
      (runTrial_budget_indep dur tb tb' lc sc lf af rd mu sg oc g r)

/-- Witness for the amended C2 at the concrete dying-trial input of the
counterexample, with two different budgets. -/
theorem C2_amended_witness :
    ¬ (rand (default_rng (fun _ k => if k = 4 then 0 else (1 : ℚ)/2) 42)).1 < 0 ∧
    ((runTrial 3 100 2 3 0 (1/4) 1000 100 0 7 0
        (default_rng (fun _ k => if k = 4 then 0 else (1 : ℚ)/2) 42)).1 =
        (runYears (1/4) 1000 100 0 7 0 3 0 ⟨100 - (2 + 3), 0, true⟩
          (rand (default_rng (fun _ k => if k = 4 then 0 else (1 : ℚ)/2)
            42)).2).1.cumulative_revenue - (2 + 3) - 7 * ((3 : Nat) : ℚ) ∧
      (runTrial 3 100 2 3 0 (1/4) 1000 100 0 7 0
          (default_rng (fun _ k => if k = 4 then 0 else (1 : ℚ)/2) 42)).1 =
        (runTrial 3 50 2 3 0 (1/4) 1000 100 0 7 0
          (default_rng (fun _ k => if k = 4 then 0 else (1 : ℚ)/2) 42)).1) :=
  ⟨by norm_num [rand, default_rng],
   C2_amended_single_flat_charge 3 100 50 2 3 0 (1/4) 1000 100 0 7 0
     (default_rng (fun _ k => if k = 4 then 0 else (1 : ℚ)/2) 42)
     (by norm_num [rand, default_rng])⟩

/-- C3: the whole pipeline is a pure function of its parameters and the
ambient entropy family — two invocations with identical parameters return
identical results (outcome array, percentiles, histogram, fan chart).
Moreover `compute_simulation` exposes no seed parameter: the primary batch
runs on the stream seeded with the fixed constant 42 (the default of
`run_monte_carlo`, which `compute_simulation` does not override), and the
fan chart on the stream seeded with the fixed constant 99. -/
theorem C3_determinism_fixed_seeds (e : Nat → Nat → ℚ)
    (tb lc sc oc lf af rd mu sg g : ℚ) (dur n : Nat) (mt : String) :
    compute_simulation e tb lc sc oc lf af rd mu sg g dur n mt =
        compute_simulation e tb lc sc oc lf af rd mu sg g dur n mt ∧
      run_monte_carlo e n dur tb lc sc lf af rd mu sg oc g =
        runTrials dur tb lc sc lf af rd mu sg oc g n (default_rng e 42) ∧
      (compute_simulation e tb lc sc oc lf af rd mu sg g dur n mt).fan_chart =
        fanChartFromRng (min n 2000) dur (lc + sc) lf af rd mu sg oc
          (default_rng e 99) :=
  ⟨rfl, rfl, rfl⟩

/-- C10: noninterference of `total_budget_usd` — two invocations of
`compute_simulation` that differ only in `total_budget_usd` return identical
results in every field: the remaining-budget quantity it initializes is
written inside each trial but never read into any outcome, statistic,
histogram, or fan-chart value. -/
theorem C10_total_budget_noninterference (e : Nat → Nat → ℚ)
    (tb tb' lc sc oc lf af rd mu sg g : ℚ) (dur n : Nat) (mt : String) :
    compute_simulation e tb lc sc oc lf af rd mu sg g dur n mt =
      compute_simulation e tb' lc sc oc lf af rd mu sg g dur n mt := by
  have h := runTrials_budget_indep dur tb tb' lc sc lf af rd mu sg oc g n
    (default_rng e 42)
  simp only [compute_simulation, run_monte_carlo]
  simp only [h]

/-- C4 counterexample: in the tracked fan-chart trial that
`compute_simulation` runs first (launch and failure probabilities 0, clear
days 100 with zero sigma, revenue 1000 per clear day, ops cost 7, investment
2 + 3, all raw draws 1/2), the year-2 accrued revenue (cumulative increment
plus the year's ops cost) is `100 * 1000 = 100000` — strictly below
`0.85 * 100 * 1000 * (1 + 1)^1 = 170000`, the smallest value the claimed
scalar-executor rule permits for that year with
`revenue_growth_pct_per_year = 1` and any noise factor in `[0.85, 1.15]`.
The third conjunct shows the fan chart of the full pipeline is the same term
for growth 0 and growth 1, so the bands do not depend on
`revenue_growth_pct_per_year` at all. -/
theorem C4_counterexample :
    (fanTrial 2 (2 + 3) 0 0 1000 100 0 7
        (default_rng (fun _ _ => (1 : ℚ)/2) 99)).1.getD 2 0 -
      (fanTrial 2 (2 + 3) 0 0 1000 100 0 7
        (default_rng (fun _ _ => (1 : ℚ)/2) 99)).1.getD 1 0 + 7 = 100000 ∧
    (100000 : ℚ) < 17/20 * (100 * 1000 * (1 + 1) ^ (1 : Nat)) ∧
    (compute_simulation (fun _ _ => (1 : ℚ)/2) 100 2 3 7 0 0 1000 100 0 0 2 3
        "earth_observation").fan_chart =
      (compute_simulation (fun _ _ => (1 : ℚ)/2) 100 2 3 7 0 0 1000 100 0 1 2 3
        "earth_observation").fan_chart := by
  refine ⟨by norm_num [fanTrial, fanYears, rand, normalDraw, uniformDraw,
      default_rng], by norm_num, rfl⟩

/-- C4 amended: in each tracked fan-chart trial a year survived alive
accrues revenue `clear_days * revenue_per_clear_day` — with no growth factor
and no noise factor (the year's cumulative increment is exactly
`max 0 (normal draw) * revenue_per_clear_day - ops_cost`) — and the
fan-chart output of the full pipeline is independent of
`revenue_growth_pct_per_year`, which `_build_fan_chart` does not receive. -/
theorem C4_amended_no_growth_no_noise :
    (∀ (e : Nat → Nat → ℚ) (tb lc sc oc lf af rd mu sg g g' : ℚ)
        (dur n : Nat) (mt : String),
      (compute_simulation e tb lc sc oc lf af rd mu sg g dur n mt).fan_chart =
        (compute_simulation e tb lc sc oc lf af rd mu sg g' dur n mt).fan_chart) ∧
    (∀ (af mu sg rd oc : ℚ) (fuel : Nat) (cum : ℚ) (r : Rng),
      ¬ (rand r).1 < af →
      (fanYears af mu sg rd oc (fuel + 1) cum true r).1.getD 0 0 =
        cum + max 0 (normalDraw mu sg (rand r).2).1 * rd - oc) := by
  constructor
  · intro e tb lc sc oc lf af rd mu sg g g' dur n mt
    rfl
  · intro af mu sg rd oc fuel cum r h
    simp [fanYears, h]

/-- Witness for the amended C4: the growth-independence conjunct at growth
rates 0 and 1/2, and the alive-year step rule at a concrete generator
state. -/
theorem C4_amended_witness :
    ((compute_simulation (fun _ _ => (1 : ℚ)/2) 100 2 3 7 0 0 1000 100 0 0 2 1
        "eo").fan_chart =
      (compute_simulation (fun _ _ => (1 : ℚ)/2) 100 2 3 7 0 0 1000 100 0 (1/2)
        2 1 "eo").fan_chart) ∧
    (¬ (rand (default_rng (fun _ _ => (1 : ℚ)/2) 99)).1 < 0) ∧
    ((fanYears 0 100 0 1000 7 (0 + 1) (-5) true
        (default_rng (fun _ _ => (1 : ℚ)/2) 99)).1.getD 0 0 =
      -5 + max 0 (normalDraw 100 0
        (rand (default_rng (fun _ _ => (1 : ℚ)/2) 99)).2).1 * 1000 - 7) :=
  ⟨C4_amended_no_growth_no_noise.1 (fun _ _ => (1 : ℚ)/2) 100 2 3 7 0 0 1000
      100 0 0 (1/2) 2 1 "eo",
   by norm_num [rand, default_rng],
   C4_amended_no_growth_no_noise.2 0 100 0 1000 7 0 (-5)
     (default_rng (fun _ _ => (1 : ℚ)/2) 99) (by norm_num [rand, default_rng])⟩

/-- C5: for every parameter set with `n_simulations ≥ 1`, the first fan-chart
point (year index 0) has every one of its five percentile bands equal to
`-total_investment` scaled to millions (under the same `round(·/1e6, 3)`
display scaling the pipeline applies to all percentile outputs). -/
theorem C5_fan_chart_year0 (e : Nat → Nat → ℚ)
    (tb lc sc oc lf af rd mu sg g : ℚ) (dur n : Nat) (mt : String)
    (hn : 1 ≤ n) :
    (compute_simulation e tb lc sc oc lf af rd mu sg g dur n mt).fan_chart.head? =
      some { year := 0
             p10 := round3 (-(lc + sc) / 1000000)
             p25 := round3 (-(lc + sc) / 1000000)
             p50 := round3 (-(lc + sc) / 1000000)
             p75 := round3 (-(lc + sc) / 1000000)
             p90 := round3 (-(lc + sc) / 1000000) } := by
  rw [compute_simulation_fan_chart]
  simp only [fanChartFromRng]
  rw [List.range_succ_eq_map, List.map_cons, List.head?_cons]
  have hall : ∀ x ∈ ((fanTrials dur (lc + sc) lf af rd mu sg oc (min n 2000)
      (default_rng e 99)).1).map (fun row => row.getD 0 0), x = -(lc + sc) := by
    intro x hx
    obtain ⟨row, hrow, rfl⟩ := List.mem_map.mp hx
    exact fanTrials_row_head dur (lc + sc) lf af rd mu sg oc (min n 2000)
      (default_rng e 99) row hrow
  have hne : ((fanTrials dur (lc + sc) lf af rd mu sg oc (min n 2000)
      (default_rng e 99)).1).map (fun row => row.getD 0 0) ≠ [] := by
    apply List.ne_nil_of_length_pos
    rw [List.length_map, fanTrials_length]
    omega
  have hp : ∀ q : ℚ, 0 ≤ q → q ≤ 100 →
      percentile (((fanTrials dur (lc + sc) lf af rd mu sg oc (min n 2000)
        (default_rng e 99)).1).map (fun row => row.getD 0 0)) q = -(lc + sc) :=
    fun q h0 h100 => percentile_const hall hne h0 h100
  simp only [Option.some.injEq, FanPoint.mk.injEq]
  refine ⟨trivial, ?_, ?_, ?_, ?_, ?_⟩
  · rw [hp 10 (by norm_num) (by norm_num)]
  · rw [hp 25 (by norm_num) (by norm_num)]
  · rw [hp 50 (by norm_num) (by norm_num)]
  · rw [hp 75 (by norm_num) (by norm_num)]
  · rw [hp 90 (by norm_num) (by norm_num)]

/-- Witness for C5 at a concrete single-trial run. -/
theorem C5_fan_chart_year0_witness :
    1 ≤ 1 ∧
    (compute_simulation (fun _ _ => (1 : ℚ)/2) 10 2 3 7 0 0 1000 100 0 0 1 1
        "eo").fan_chart.head? =
      some { year := 0
             p10 := round3 (-((2 : ℚ) + 3) / 1000000)
             p25 := round3 (-((2 : ℚ) + 3) / 1000000)
             p50 := round3 (-((2 : ℚ) + 3) / 1000000)
             p75 := round3 (-((2 : ℚ) + 3) / 1000000)
             p90 := round3 (-((2 : ℚ) + 3) / 1000000) } :=
  ⟨by decide,
   C5_fan_chart_year0 (fun _ _ => (1 : ℚ)/2) 10 2 3 7 0 0 1000 100 0 0 1 1 "eo"
     (by decide)⟩

/-- C6: for every run, the histogram is exactly the 30-bin
`np.histogram`-style aggregation of the outcome array, with 30 entries whose
counts sum to `n_simulations` exactly; and for any outcome array, the 31 bin
edges are equally spaced, running from `histLo` to `histHi`, an interval
that contains `[min(outcomes), max(outcomes)]` (it equals it whenever
`min < max`; a zero-width range is expanded by a half unit on each side,
NumPy's behavior). -/
theorem C6_histogram_bins (e : Nat → Nat → ℚ)
    (tb lc sc oc lf af rd mu sg g : ℚ) (dur n : Nat) (mt : String) :
    (compute_simulation e tb lc sc oc lf af rd mu sg g dur n mt).histogram =
      histogramOf (run_monte_carlo e n dur tb lc sc lf af rd mu sg oc g) n ∧
    (compute_simulation e tb lc sc oc lf af rd mu sg g dur n mt).histogram.length
      = 30 ∧
    ((compute_simulation e tb lc sc oc lf af rd mu sg g dur n mt).histogram.map
      (fun b => b.count)).sum = n ∧
    (∀ (l : List ℚ) (i : Nat),
      histEdge (histLo (listMin l) (listMax l)) (histHi (listMin l) (listMax l))
          (i + 1) -
        histEdge (histLo (listMin l) (listMax l)) (histHi (listMin l) (listMax l))
          i =
        (histHi (listMin l) (listMax l) - histLo (listMin l) (listMax l)) / 30) ∧
    (∀ l : List ℚ,
      histEdge (histLo (listMin l) (listMax l)) (histHi (listMin l) (listMax l))
          0 = histLo (listMin l) (listMax l) ∧
      histEdge (histLo (listMin l) (listMax l)) (histHi (listMin l) (listMax l))
          30 = histHi (listMin l) (listMax l) ∧
      histLo (listMin l) (listMax l) ≤ listMin l ∧
      listMax l ≤ histHi (listMin l) (listMax l)) := by
  refine ⟨rfl, ?_, ?_, ?_, ?_⟩
  · rw [compute_simulation_histogram]
    exact histogramOf_length _ _
  · rw [compute_simulation_histogram, histogramOf_count_sum,
      run_monte_carlo_length]
  · intro l i
    simp only [histEdge]
    push_cast
    ring
  · intro l
    refine ⟨by simp [histEdge], ?_, ?_, ?_⟩
    · simp only [histEdge]
      ring
    · simp only [histLo]
      split_ifs with h
      · linarith
      · exact le_rfl
    · simp only [histHi]
      split_ifs with h
      · linarith
      · exact le_rfl

/-- C7: with `launch_failure_prob = 1`, a well-formed primary stream (every
raw uniform draw is `< 1`, as `Generator.random()` guarantees), a positive
total investment, and at least one trial, every outcome equals exactly
`-total_investment`; consequently all seven reported percentiles are equal
(each is `-total_investment` scaled to millions) and `profitable_pct = 0`. -/
theorem C7_certain_launch_failure (e : Nat → Nat → ℚ)
    (tb lc sc oc af rd mu sg g : ℚ) (dur n : Nat) (mt : String)
    (hw : ∀ k, e 42 k < 1) (hti : 0 < lc + sc) (hn : 1 ≤ n) :
    run_monte_carlo e n dur tb lc sc 1 af rd mu sg oc g =
        List.replicate n (-(lc + sc)) ∧
    (compute_simulation e tb lc sc oc 1 af rd mu sg g dur n mt).percentiles =
      { p5 := round3 (-(lc + sc) / 1000000)
        p10 := round3 (-(lc + sc) / 1000000)
        p25 := round3 (-(lc + sc) / 1000000)
        p50 := round3 (-(lc + sc) / 1000000)
        p75 := round3 (-(lc + sc) / 1000000)
        p90 := round3 (-(lc + sc) / 1000000)
        p95 := round3 (-(lc + sc) / 1000000) } ∧
    (compute_simulation e tb lc sc oc 1 af rd mu sg g dur n mt).profitable_pct
      = 0 := by
  have houts : run_monte_carlo e n dur tb lc sc 1 af rd mu sg oc g =
      List.replicate n (-(lc + sc)) :=
    runTrials_all_launch_fail dur tb lc sc af rd mu sg oc g (e 42) hw n 0
  have hrep : ∀ q : ℚ, 0 ≤ q → q ≤ 100 →
      percentile (run_monte_carlo e n dur tb lc sc 1 af rd mu sg oc g) q =
        -(lc + sc) := by
    intro q h0 h100
    rw [houts]
    refine percentile_const (fun x hx => List.eq_of_mem_replicate hx) ?_ h0 h100
    apply List.ne_nil_of_length_pos
    rw [List.length_replicate]
    omega
  refine ⟨houts, ?_, ?_⟩
  · rw [compute_simulation_percentiles]
    rw [hrep 5 (by norm_num) (by norm_num), hrep 10 (by norm_num) (by norm_num),
      hrep 25 (by norm_num) (by norm_num), hrep 50 (by norm_num) (by norm_num),
      hrep 75 (by norm_num) (by norm_num), hrep 90 (by norm_num) (by norm_num),
      hrep 95 (by norm_num) (by norm_num)]
  · rw [compute_simulation_profitable_pct, houts]
    have hcount : (List.replicate n (-(lc + sc))).countP
        (fun x => decide (0 < x)) = 0 := by
      rw [List.countP_eq_zero]
      intro x hx
      rw [List.eq_of_mem_replicate hx]
      simp only [decide_eq_true_eq, not_lt]
      linarith
    rw [hcount]
    simp [round1]

/-- Witness for C7 at a concrete two-trial run with all raw draws 1/2. -/
theorem C7_certain_launch_failure_witness :
    (∀ k : Nat, ((fun _ _ => (1 : ℚ)/2) : Nat → Nat → ℚ) 42 k < 1) ∧
    (0 : ℚ) < 2 + 3 ∧ 1 ≤ 2 ∧
    (run_monte_carlo (fun _ _ => (1 : ℚ)/2) 2 1 10 2 3 1 0 1000 100 0 7 0 =
        List.replicate 2 (-((2 : ℚ) + 3)) ∧
      (compute_simulation (fun _ _ => (1 : ℚ)/2) 10 2 3 7 1 0 1000 100 0 0 1 2
          "eo").percentiles =
        { p5 := round3 (-((2 : ℚ) + 3) / 1000000)
          p10 := round3 (-((2 : ℚ) + 3) / 1000000)
          p25 := round3 (-((2 : ℚ) + 3) / 1000000)
          p50 := round3 (-((2 : ℚ) + 3) / 1000000)
          p75 := round3 (-((2 : ℚ) + 3) / 1000000)
          p90 := round3 (-((2 : ℚ) + 3) / 1000000)
          p95 := round3 (-((2 : ℚ) + 3) / 1000000) } ∧
      (compute_simulation (fun _ _ => (1 : ℚ)/2) 10 2 3 7 1 0 1000 100 0 0 1 2
          "eo").profitable_pct = 0) :=
  ⟨fun k => by norm_num, by norm_num, by decide,
   C7_certain_launch_failure (fun _ _ => (1 : ℚ)/2) 10 2 3 7 0 1000 100 0 0 1 2
     "eo" (fun k => by norm_num) (by norm_num) (by decide)⟩

/-- C8: the reported percentiles of every run are monotone:
`p5 ≤ p10 ≤ p25 ≤ p50 ≤ p75 ≤ p90 ≤ p95` (linear-interpolation percentiles
are monotone in the rank, and the display rounding preserves order). -/
theorem C8_percentile_monotonicity (e : Nat → Nat → ℚ)
    (tb lc sc oc lf af rd mu sg g : ℚ) (dur n : Nat) (mt : String) :
    (compute_simulation e tb lc sc oc lf af rd mu sg g dur n mt).percentiles.p5 ≤
      (compute_simulation e tb lc sc oc lf af rd mu sg g dur n mt).percentiles.p10 ∧
    (compute_simulation e tb lc sc oc lf af rd mu sg g dur n mt).percentiles.p10 ≤
      (compute_simulation e tb lc sc oc lf af rd mu sg g dur n mt).percentiles.p25 ∧
    (compute_simulation e tb lc sc oc lf af rd mu sg g dur n mt).percentiles.p25 ≤
      (compute_simulation e tb lc sc oc lf af rd mu sg g dur n mt).percentiles.p50 ∧
    (compute_simulation e tb lc sc oc lf af rd mu sg g dur n mt).percentiles.p50 ≤
      (compute_simulation e tb lc sc oc lf af rd mu sg g dur n mt).percentiles.p75 ∧
    (compute_simulation e tb lc sc oc lf af rd mu sg g dur n mt).percentiles.p75 ≤
      (compute_simulation e tb lc sc oc lf af rd mu sg g dur n mt).percentiles.p90 ∧
    (compute_simulation e tb lc sc oc lf af rd mu sg g dur n mt).percentiles.p90 ≤
      (compute_simulation e tb lc sc oc lf af rd mu sg g dur n mt).percentiles.p95 := by
  by_cases houts : run_monte_carlo e n dur tb lc sc lf af rd mu sg oc g = []
  · have hz : ∀ q : ℚ,
        (compute_simulation e tb lc sc oc lf af rd mu sg g dur n mt).percentiles =
          { p5 := round3 (percentile (run_monte_carlo e n dur tb lc sc lf af rd
              mu sg oc g) 5 / 1000000)
            p10 := round3 (percentile (run_monte_carlo e n dur tb lc sc lf af rd
              mu sg oc g) 10 / 1000000)
            p25 := round3 (percentile (run_monte_carlo e n dur tb lc sc lf af rd
              mu sg oc g) 25 / 1000000)
            p50 := round3 (percentile (run_monte_carlo e n dur tb lc sc lf af rd
              mu sg oc g) 50 / 1000000)
            p75 := round3 (percentile (run_monte_carlo e n dur tb lc sc lf af rd
              mu sg oc g) 75 / 1000000)
            p90 := round3 (percentile (run_monte_carlo e n dur tb lc sc lf af rd
              mu sg oc g) 90 / 1000000)
            p95 := round3 (percentile (run_monte_carlo e n dur tb lc sc lf af rd
              mu sg oc g) 95 / 1000000) } :=
      fun _ => compute_simulation_percentiles e tb lc sc oc lf af rd mu sg g dur n mt
    rw [hz 0]
    simp [houts, percentile_nil]
  · have key : ∀ q₁ q₂ : ℚ, 0 ≤ q₁ → q₁ ≤ q₂ → q₂ ≤ 100 →
        round3 (percentile (run_monte_carlo e n dur tb lc sc lf af rd mu sg oc g)
            q₁ / 1000000) ≤
        round3 (percentile (run_monte_carlo e n dur tb lc sc lf af rd mu sg oc g)
            q₂ / 1000000) := by
      intro q₁ q₂ h0 h12 h100
      apply round3_mono
      have h := percentile_mono houts h0 h12 h100
      linarith
    exact ⟨key 5 10 (by norm_num) (by norm_num) (by norm_num),
      key 10 25 (by norm_num) (by norm_num) (by norm_num),
      key 25 50 (by norm_num) (by norm_num) (by norm_num),
      key 50 75 (by norm_num) (by norm_num) (by norm_num),
      key 75 90 (by norm_num) (by norm_num) (by norm_num),
      key 90 95 (by norm_num) (by norm_num) (by norm_num)⟩

/-- C9 counterexample: with `launch_failure_prob = 1` every outcome is
`-total_investment = -5`, so the outcome range has zero width — yet the
computation reports no error: it silently emits a full histogram (the 30 bin
counts still sum to `n_simulations = 2`) and finite percentile values. The
source has no degeneracy check at all (`compute_simulation` is a total
function of its inputs). -/
theorem C9_counterexample :
    listMin (run_monte_carlo (fun _ _ => (1 : ℚ)/2) 2 1 10 2 3 1 0 1000 100 0
        7 0) =
      listMax (run_monte_carlo (fun _ _ => (1 : ℚ)/2) 2 1 10 2 3 1 0 1000 100 0
        7 0) ∧
    ((compute_simulation (fun _ _ => (1 : ℚ)/2) 10 2 3 7 1 0 1000 100 0 0 1 2
        "eo").histogram.map (fun b => b.count)).sum = 2 ∧
    (compute_simulation (fun _ _ => (1 : ℚ)/2) 10 2 3 7 1 0 1000 100 0 0 1 2
        "eo").percentiles.p50 = round3 ((-(5 : ℚ)) / 1000000) := by
  refine ⟨?_, ?_, ?_⟩
  · norm_num [run_monte_carlo, runTrials, runTrial, runYears, rand, normalDraw,
      uniformDraw, default_rng, listMin, listMax]
  · norm_num [compute_simulation, histogramOf, run_monte_carlo, runTrials,
      runTrial, runYears, rand, normalDraw, uniformDraw, default_rng, listMin,
      listMax, histLo, histHi, binIdx, histEdge, List.range_succ,
      List.countP_cons, List.countP_nil, inf_eq_min, Nat.min_def, beq_iff_eq,
      Int.toNat_ofNat]
    decide
  · norm_num [compute_simulation, run_monte_carlo, runTrials, runTrial,
      runYears, rand, normalDraw, uniformDraw, default_rng, percentile, interp,
      round3, round_eq]

/-- C9 amended: a zero-width outcome range is not detected and produces no
error: `np.histogram` silently expands the range to
`[min - 1/2, max + 1/2]` and the pipeline emits a normal 30-bin histogram
whose counts still sum to `n_simulations`. (NaN inputs are outside the
exact-rational embedding; the zero-width half of the claim already fails on
the code.) -/
theorem C9_amended_no_detection (e : Nat → Nat → ℚ)
    (tb lc sc oc lf af rd mu sg g : ℚ) (dur n : Nat) (mt : String)
    (hdeg : listMin (run_monte_carlo e n dur tb lc sc lf af rd mu sg oc g) =
      listMax (run_monte_carlo e n dur tb lc sc lf af rd mu sg oc g)) :
    histLo (listMin (run_monte_carlo e n dur tb lc sc lf af rd mu sg oc g))
        (listMax (run_monte_carlo e n dur tb lc sc lf af rd mu sg oc g)) =
      listMin (run_monte_carlo e n dur tb lc sc lf af rd mu sg oc g) - 1/2 ∧
    histHi (listMin (run_monte_carlo e n dur tb lc sc lf af rd mu sg oc g))
        (listMax (run_monte_carlo e n dur tb lc sc lf af rd mu sg oc g)) =
      listMax (run_monte_carlo e n dur tb lc sc lf af rd mu sg oc g) + 1/2 ∧
    ((compute_simulation e tb lc sc oc lf af rd mu sg g dur n mt).histogram.map
      (fun b => b.count)).sum = n ∧
    (compute_simulation e tb lc sc oc lf af rd mu sg g dur n mt).histogram.length
      = 30 := by
  refine ⟨?_, ?_, ?_, ?_⟩
  · simp [histLo, hdeg]
  · simp [histHi, hdeg]
  · rw [compute_simulation_histogram, histogramOf_count_sum,
      run_monte_carlo_length]
  · rw [compute_simulation_histogram]
    exact histogramOf_length _ _

/-- Witness for the amended C9 at the degenerate all-launch-fail input. -/
theorem C9_amended_witness :
    listMin (run_monte_carlo (fun _ _ => (1 : ℚ)/2) 2 1 10 2 3 1 0 1000 100 0
        7 0) =
      listMax (run_monte_carlo (fun _ _ => (1 : ℚ)/2) 2 1 10 2 3 1 0 1000 100 0
        7 0) ∧
    (histLo (listMin (run_monte_carlo (fun _ _ => (1 : ℚ)/2) 2 1 10 2 3 1 0 1000
          100 0 7 0))
        (listMax (run_monte_carlo (fun _ _ => (1 : ℚ)/2) 2 1 10 2 3 1 0 1000 100
          0 7 0)) =
      listMin (run_monte_carlo (fun _ _ => (1 : ℚ)/2) 2 1 10 2 3 1 0 1000 100 0
        7 0) - 1/2 ∧
    histHi (listMin (run_monte_carlo (fun _ _ => (1 : ℚ)/2) 2 1 10 2 3 1 0 1000
          100 0 7 0))
        (listMax (run_monte_carlo (fun _ _ => (1 : ℚ)/2) 2 1 10 2 3 1 0 1000 100
          0 7 0)) =
      listMax (run_monte_carlo (fun _ _ => (1 : ℚ)/2) 2 1 10 2 3 1 0 1000 100 0
        7 0) + 1/2 ∧
    ((compute_simulation (fun _ _ => (1 : ℚ)/2) 10 2 3 7 1 0 1000 100 0 0 1 2
        "eo").histogram.map (fun b => b.count)).sum = 2 ∧
    (compute_simulation (fun _ _ => (1 : ℚ)/2) 10 2 3 7 1 0 1000 100 0 0 1 2
        "eo").histogram.length = 30) := by
  have hdeg : listMin (run_monte_carlo (fun _ _ => (1 : ℚ)/2) 2 1 10 2 3 1 0
      1000 100 0 7 0) =
        listMax (run_monte_carlo (fun _ _ => (1 : ℚ)/2) 2 1 10 2 3 1 0 1000 100
          0 7 0) := by
    norm_num [run_monte_carlo, runTrials, runTrial, runYears, rand, normalDraw,
      uniformDraw, default_rng, listMin, listMax]
  exact ⟨hdeg, C9_amended_no_detection (fun _ _ => (1 : ℚ)/2) 10 2 3 7 1 0 1000
    100 0 0 1 2 "eo" hdeg⟩

end Claims

end Orbit
